import Mathlib

/-!
Verification development for the MiniState repository.

The repository contains two drafts of the same small state-management
library:

* src/ministate.html — the MiniState IIFE built around a nested
  state object, per-key watchers, a catalog of predefined FSM states
  checked after each committed change, and direct DOM updates
  (requestLocalStateChange, _notify, _checkPredefinedStates, _validateState);
* src/ministate.js (and src/unnamed/part_000, an extended copy) — the
  MiniState built around a flat appState, named state definitions,
  a transition graph with optional guards, and changeState / transitionState.

Both drafts are shallowly embedded below.  JavaScript objects become
association lists that preserve insertion order; machine side effects
(console output, DOM writes, watcher invocations) become entries of an
explicit trace; JavaScript exceptions become an explicit thrown outcome;
the synchronous recursion of watcher cascades becomes a fuel-indexed
interpreter (running out of fuel returns none, so a run that returns
none for every fuel is a run that never settles).
-/

/-- A JavaScript value as it can be passed to requestLocalStateChange.
String(v) coercion is modelled by jsString. -/
inductive JSVal where
  | str (s : String)
  | num (n : Int)
  | boolean (b : Bool)
  | undef
  | null
deriving DecidableEq, Repr

/-- The JavaScript String(...) coercion used at line 127 of
src/ministate.html before comparison and storage. -/
def jsString : JSVal → String
  | .str s => s
  | .num n => toString n
  | .boolean b => if b then "true" else "false"
  | .undef => "undefined"
  | .null => "null"

/-- The nested state object of src/ministate.html: componentId to an
object from property name to string value, as an insertion-ordered
association list. -/
abbrev Store := List (String × List (String × String))

/-- Model of reading state[compId]: none when the component object is absent. -/
def lookupComp : Store → String → Option (List (String × String))
  | [], _ => none
  | (d, props) :: rest, compId =>
      if d == compId then some props else lookupComp rest compId

/-- Model of reading obj[prop] on a property object: none models undefined. -/
def lookupProp : List (String × String) → String → Option String
  | [], _ => none
  | (q, w) :: rest, prop =>
      if q == prop then some w else lookupProp rest prop

/-- Model of the read state[componentId] ? state[componentId][property] : undefined. -/
def getVal (st : Store) (compId prop : String) : Option String :=
  match lookupComp st compId with
  | none => none
  | some props => lookupProp props prop

/-- Model of the assignment obj[prop] = v on a property object: replaces an
existing entry in place, otherwise appends (JavaScript insertion order). -/
def setProp : List (String × String) → String → String → List (String × String)
  | [], p, v => [(p, v)]
  | (q, w) :: rest, p, v =>
      if q == p then (q, v) :: rest else (q, w) :: setProp rest p v

/-- Model of state[componentId][property] = v, creating the component object
first when absent (lines 130-133 of src/ministate.html). -/
def setVal : Store → String → String → String → Store
  | [], c, p, v => [(c, [(p, v)])]
  | (d, props) :: rest, c, p, v =>
      if d == c then (d, setProp props p v) :: rest
      else (d, props) :: setVal rest c p v

/-- Character-level split at '.', the behaviour of key.split('.'),
written structurally so that it evaluates inside the kernel. -/
def splitDots : List Char → List (List Char)
  | [] => [[]]
  | c :: rest =>
      let r := splitDots rest
      if c = '.' then [] :: r
      else
        match r with
        | [] => [[c]]
        | s :: ss => (c :: s) :: ss

/-- Splitting a catalog binding key at the dots, as key.split('.') does;
the JavaScript destructuring takes the first two pieces, and a missing
second piece behaves as the property name "undefined". -/
def keyComp (key : String) : String :=
  String.mk ((splitDots key.data).getD 0 [])

/-- Second piece of key.split('.'). -/
def keyProp (key : String) : String :=
  String.mk ((splitDots key.data).getD 1 "undefined".data)

/-- Value the store holds at a dotted binding key (nested lookup through
both levels); none models undefined. -/
def getValueByKey (st : Store) (key : String) : Option String :=
  getVal st (keyComp key) (keyProp key)

/-- The allowedWatchProperties list of src/ministate.html, lines 18-32. -/
def allowedWatchProperties : List String :=
  ["textContent", "innerHTML", "value", "click", "input", "change",
   "submit", "className", "classList", "selected", "disabled", "fetch", "url"]

/-- DOM-update skip list of _notify, line 90 of src/ministate.html. -/
def skipDomUpdateProperties : List String :=
  ["click", "input", "change", "submit", "fetch", "url"]

/-- Toggle resolution of requestLocalStateChange, lines 116-125 of
src/ministate.html, applied to the current committed value
(none models undefined). -/
def resolveToggle (currentValue : Option String) : String :=
  if currentValue = some "true" then "false"
  else if currentValue = some "false" ∨ currentValue = none then "true"
  else if currentValue = some "" then "hidden" else ""

/-- Value resolution of requestLocalStateChange: the sentinel "toggle" is
resolved against the current committed value, anything else is kept;
the result is then coerced with String(...). -/
def resolveValue (currentValue : Option String) (newValue : JSVal) : JSVal :=
  if newValue = JSVal.str "toggle" then JSVal.str (resolveToggle currentValue)
  else newValue

/-- One condition of a predefined state, checked as in the inner loop of
_checkPredefinedStates (lines 145-156 of src/ministate.html):
the entry passes unless the component object is absent or the stored
value differs, except that a wildcard value always passes. -/
def condPasses (st : Store) (key value : String) : Bool :=
  match lookupComp st (keyComp key) with
  | none =>
      -- !state[compId] raises the failure branch, which continues only
      -- when the expected value is the wildcard
      value == "*"
  | some props =>
      if value != "*" && lookupProp props (keyProp key) != some value then
        false
      else
        true

/-- Full-state match of _checkPredefinedStates: every condition of the
predefined state must pass (the loop breaks at the first failure). -/
def matchesConds (st : Store) (conds : List (String × String)) : Bool :=
  conds.all (fun kv => condPasses st kv.1 kv.2)

/-- One condition of _validateState (lines 178-185 of src/ministate.html):
a wildcard is skipped, otherwise the component object must exist and hold
exactly the expected value. -/
def valMatches (st : Store) (key val : String) : Bool :=
  if val == "*" then true
  else
    match lookupComp st (keyComp key) with
    | none => false
    | some props => lookupProp props (keyProp key) == some val

/-- The catalog of predefined FSM states, in definition order. -/
abbrev Catalog := List (String × List (String × String))

/-- First fully matching predefined state, scanning the catalog in
definition order exactly as the for...of loop with break of
_checkPredefinedStates does. -/
def findFirstMatch (catalog : Catalog) (st : Store) :
    Option (String × List (String × String)) :=
  catalog.find? (fun entry => matchesConds st entry.2)


/-- Observable effects of the MiniState engine of src/ministate.html,
recorded as an explicit trace: watcher invocations, side effects of the
user callbacks themselves, DOM writes, and console output. -/
inductive Event where
  | watcherCalled (key value : String)
  | cbLog (msg : String)
  | domSet (componentId property value : String)
  | classAdd (componentId : String)
  | classRemove (componentId : String)
  | consoleError (msg : String)
  | consoleLog (msg : String)
  | consoleWarn (msg : String)
deriving DecidableEq, Repr

/-- A watcher callback, defunctionalised: a callback either performs an
opaque local effect (log), issues a further requestLocalStateChange
(request), or throws (throwErr). -/
inductive Callback where
  | log (msg : String)
  | request (componentId property : String) (v : JSVal)
  | throwErr (e : String)
deriving DecidableEq, Repr

/-- Whole module state of the src/ministate.html IIFE: the nested state
object, the watcher registry, the predefined-state catalog, the set of
DOM elements that exist, the current-state pointer, and the trace of
observable effects so far. -/
structure MSState where
  state : Store
  watchers : List (String × List Callback)
  predefinedStates : Catalog
  elements : List String
  currentStateName : Option String
  trace : List Event
deriving DecidableEq, Repr

/-- Outcome of running a piece of the engine: normal completion, or a
JavaScript exception propagating out (carrying the state reached so far,
since side effects before the throw persist). -/
inductive Outcome where
  | ok (st : MSState)
  | thrown (e : String) (st : MSState)
deriving DecidableEq, Repr

/-- Callback list registered for a binding key (watchers[stateKey] || []). -/
def watchersFor (st : MSState) (key : String) : List Callback :=
  ((st.watchers.find? (fun e => e.1 == key)).map (·.2)).getD []

/-- DOM-update section of _notify (lines 86-103 of src/ministate.html):
skipped when the element does not exist or the property is on the skip
list; classList toggles the hidden class, everything else assigns the
property. -/
def domUpdate (st : MSState) (componentId property v : String) : MSState :=
  if st.elements.contains componentId ∧ ¬ skipDomUpdateProperties.contains property then
    if property = "classList" then
      if v = "hidden" then
        { st with trace := st.trace ++ [Event.classAdd componentId] }
      else if v = "" then
        { st with trace := st.trace ++ [Event.classRemove componentId] }
      else st
    else
      { st with trace := st.trace ++ [Event.domSet componentId property v] }
  else st

/-- Model of _validateState (lines 176-191 of src/ministate.html): warns
when no predefined state fully matches the committed store. -/
def _validateState (st : MSState) : MSState :=
  if st.predefinedStates.any
      (fun e => e.2.all (fun kv => valMatches st.state kv.1 kv.2)) then st
  else
    { st with trace := st.trace ++
        [Event.consoleWarn "Invalid state combination after processing state changes"] }

/-- Model of _checkPredefinedStates (lines 142-173 of src/ministate.html):
select the first fully matching predefined state, update the
current-state pointer and log accordingly, then validate. -/
def _checkPredefinedStates (st : MSState) : MSState :=
  let st' :=
    match findFirstMatch st.predefinedStates st.state with
    | some (stateName, _conds) =>
        if st.currentStateName ≠ some stateName then
          { st with currentStateName := some stateName,
                    trace := st.trace ++
                      [Event.consoleLog ("Transitioned to state " ++ stateName)] }
        else
          { st with trace := st.trace ++
              [Event.consoleLog ("Already in state " ++ stateName)] }
    | none => st
  _validateState st'

/-- The watchers[stateKey].forEach dispatch loop of _notify (lines 79-84
of src/ministate.html), parametrised by the engine re-entry function
used by Callback.request.  Each invocation is recorded; a throwing
callback stops the loop and propagates (the source has no try/catch);
none bubbles up exhausted fuel from the re-entry. -/
def processCallbacks
    (req : MSState → String → String → JSVal → Option Outcome) :
    MSState → String → String → List Callback → Option Outcome
  | st, _key, _v, [] => some (.ok st)
  | st, key, v, cb :: rest =>
      let st0 := { st with trace := st.trace ++ [Event.watcherCalled key v] }
      match cb with
      | .log msg =>
          processCallbacks req
            { st0 with trace := st0.trace ++ [Event.cbLog msg] } key v rest
      | .throwErr e => some (.thrown e st0)
      | .request c p val =>
          match req st0 c p val with
          | none => none
          | some (.thrown e st') => some (.thrown e st')
          | some (.ok st') => processCallbacks req st' key v rest

/-- Model of _notify (lines 76-104 of src/ministate.html): run the
watcher callbacks for componentId.property in registration order, then
perform the DOM update. -/
def _notify
    (req : MSState → String → String → JSVal → Option Outcome)
    (st : MSState) (componentId property v : String) : Option Outcome :=
  match processCallbacks req st (componentId ++ "." ++ property) v
      (watchersFor st (componentId ++ "." ++ property)) with
  | none => none
  | some (.thrown e st') => some (.thrown e st')
  | some (.ok st') => some (.ok (domUpdate st' componentId property v))

/-- Model of requestLocalStateChange (lines 107-139 of src/ministate.html),
indexed by fuel to account for the synchronous recursion through watcher
callbacks; none means the fuel ran out before the request settled.
An unknown property logs an error and returns; "toggle" is resolved
against the current committed value; the resolved value is coerced with
String(...); an unchanged value is a no-op; otherwise the store is
written, _notify runs (watchers first, then the DOM update), and
_checkPredefinedStates runs last. -/
def requestLocalStateChange : Nat → MSState → String → String → JSVal → Option Outcome
  | 0, _, _, _, _ => none
  | fuel + 1, st, componentId, property, newValue =>
      if ¬ allowedWatchProperties.contains property then
        some (.ok { st with trace := st.trace ++
          [Event.consoleError ("Property " ++ property ++ " is not allowed.")] })
      else
        let currentValue := getVal st.state componentId property
        let newValueS := jsString (resolveValue currentValue newValue)
        if currentValue = some newValueS then
          some (.ok st)
        else
          let st1 := { st with state := setVal st.state componentId property newValueS }
          match _notify (fun s c p v => requestLocalStateChange fuel s c p v)
              st1 componentId property newValueS with
          | none => none
          | some (.thrown e st2) => some (.thrown e st2)
          | some (.ok st2) => some (.ok (_checkPredefinedStates st2))

/-- Whole module state of src/ministate.js (and its extended copy
src/unnamed/part_000): the flat appState object, the watcher registry,
the named state definitions, the transition graph, the current state
name, and the console log.  Watcher callbacks registered in that draft
(the observeState closure of bindElement) only write the DOM and persist
the snapshot, never appState, so they are modelled as opaque labels whose
invocation is recorded in the log. -/
structure JSState where
  appState : List (String × String)
  stateWatchers : List (String × List String)
  states : List (String × List (String × String))
  stateTransitions : List (String × List (String × Option Bool))
  currentState : String
  log : List String
deriving DecidableEq, Repr

/-- Callback list registered for a key (stateWatchers[stateKey] || []). -/
def jsWatchersFor (st : JSState) (key : String) : List String :=
  ((st.stateWatchers.find? (fun e => e.1 == key)).map (·.2)).getD []

/-- Model of changeState (lines 74-84 of src/ministate.js): when the new
value differs from appState[stateKey] (strict comparison; an absent key
is undefined and always differs from a string), the key is written, the
watchers for the key are invoked in order with the new value, and the
snapshot is persisted.  appState is a flat object of the same shape as
a property object, so setProp and lookupProp model its writes and reads. -/
def changeState (st : JSState) (stateKey newValue : String) : JSState :=
  if lookupProp st.appState stateKey = some newValue then st
  else
    let st1 := { st with appState := setProp st.appState stateKey newValue }
    let st2 := { st1 with log := st1.log ++ ((jsWatchersFor st1 stateKey).map (fun cb => "watcher " ++ cb ++ " called with " ++ newValue)) }
    { st2 with log := st2.log ++ ["persistState"] }

/-- Model of applyStateDefinition (lines 68-72 of src/ministate.js):
changeState on every entry of the definition, in definition order. -/
def applyStateDefinition (st : JSState)
    (stateDefinition : List (String × String)) : JSState :=
  stateDefinition.foldl (fun s kv => changeState s kv.1 kv.2) st

/-- Edges leaving the current state (stateTransitions[currentState] || [],
line 56 of src/ministate.js). -/
def allowedTransitionsOf (st : JSState) : List (String × Option Bool) :=
  ((st.stateTransitions.find? (fun e => e.1 == st.currentState)).map (·.2)).getD []

/-- The edge search of transitionState, line 57 of src/ministate.js:
the first edge to newState whose guard is absent or whose call returns a
truthy value.  The guard is modelled by the truthiness of the value its
call returns (none models an absent condition). -/
def findValidTransition (st : JSState) (newState : String) :
    Option (String × Option Bool) :=
  (allowedTransitionsOf st).find?
    (fun t => t.1 == newState && (match t.2 with | none => true | some b => b))

/-- Lookup of states[name]; none models undefined. -/
def stateDefOf (st : JSState) (name : String) : Option (List (String × String)) :=
  (st.states.find? (fun e => e.1 == name)).map (·.2)

/-- Model of transitionState (lines 53-66 of src/ministate.js): a request
for the current state returns immediately; otherwise the first valid edge
is searched; with a valid edge the current state is reassigned and the
target definition applied (the overall none models the TypeError that
Object.entries(undefined) throws when the target state is undefined);
without one a not-allowed diagnostic is logged and nothing changes. -/
def transitionState (st : JSState) (newState : String) : Option JSState :=
  if st.currentState = newState then some st
  else
    match findValidTransition st newState with
    | some _t =>
        match stateDefOf st newState with
        | none => none
        | some sdef =>
            let st1 := applyStateDefinition { st with currentState := newState } sdef
            some { st1 with log := st1.log ++ ["Transitioned to State: " ++ newState] }
    | none =>
        some { st with log := st.log ++
          ["Transition from " ++ st.currentState ++ " to " ++ newState ++
           " not allowed."] }

/-- Scenario for the commit-gating claim: a two-key catalog entry of
which only the first key gets staged, plus one watcher on that key. -/
def eagerStart : MSState :=
  { state := [],
    watchers := [("x.value", [Callback.log "x watcher ran"])],
    predefinedStates := [("A", [("x.value", "1"), ("y.value", "2")])],
    elements := ["x"], currentStateName := none, trace := [] }

/-- State after requesting only x.value = "1" in eagerStart. -/
def eagerResult : MSState :=
  { eagerStart with
      state := [("x", [("value", "1")])],
      trace := [Event.watcherCalled "x.value" "1",
                Event.cbLog "x watcher ran",
                Event.domSet "x" "value" "1",
                Event.consoleWarn "Invalid state combination after processing state changes"] }

/-- Scenario for the cascade claims: one watcher on toggleButton.value
that answers every committed change with a further toggle request. -/
def cycState : MSState :=
  { state := [("toggleButton", [("value", "true")])],
    watchers := [("toggleButton.value",
      [Callback.request "toggleButton" "value" (.str "toggle")])],
    predefinedStates := [], elements := ["toggleButton"],
    currentStateName := none, trace := [] }

/-- The toggle cascade started in cycState never settles: for every fuel
bound the interpreter is still running when the fuel is exhausted. -/
def cascadeNeverSettles : Prop :=
  ∀ fuel : Nat,
    requestLocalStateChange fuel cycState "toggleButton" "value" (.str "toggle") = none

/-- Scenario observing the order of nested effects: the watcher on
toggleButton.value issues a request for toggleButton.textContent. -/
def reentryStart : MSState :=
  { state := [("toggleButton", [("value", "false")])],
    watchers := [("toggleButton.value",
      [Callback.request "toggleButton" "textContent" (.str "Hide Sidebar")])],
    predefinedStates := [], elements := ["toggleButton"],
    currentStateName := none, trace := [] }

/-- State after requesting toggleButton.value = "true" in reentryStart:
the nested request's DOM write and state check land in the trace before
the outer request's own DOM write and state check. -/
def reentryResult : MSState :=
  { reentryStart with
      state := [("toggleButton", [("value", "true"), ("textContent", "Hide Sidebar")])],
      trace := [Event.watcherCalled "toggleButton.value" "true",
                Event.domSet "toggleButton" "textContent" "Hide Sidebar",
                Event.consoleWarn "Invalid state combination after processing state changes",
                Event.domSet "toggleButton" "value" "true",
                Event.consoleWarn "Invalid state combination after processing state changes"] }

/-- Scenario for watcher isolation: two callbacks on x.value, the first
of which throws. -/
def c3State : MSState :=
  { state := [], watchers := [("x.value", [Callback.throwErr "boom", Callback.log "second"])],
    predefinedStates := [], elements := ["x"], currentStateName := none, trace := [] }

/-- Scenario for value coercion: one logging watcher on x.value and an
empty store, to be fed the number 5. -/
def coercionState : MSState :=
  { state := [], watchers := [("x.value", [Callback.log "w"])],
    predefinedStates := [], elements := [], currentStateName := none, trace := [] }

/-- Scenario for self-transition: current state A, no transition edges at
all (in particular no self edge A to A). -/
def c4State : JSState :=
  { appState := [("k", "1")], stateWatchers := [], states := [("A", [("k", "1")])],
    stateTransitions := [], currentState := "A", log := [] }

/-- Scenario for a legal transition: an edge from A to B whose guard call
returns true, and a two-key definition for B. -/
def c4EdgeState : JSState :=
  { appState := [], stateWatchers := [], states := [("B", [("k", "2"), ("m", "3")])],
    stateTransitions := [("A", [("B", some true)])], currentState := "A", log := [] }

/-- A condition passes exactly when it is wildcarded or the store holds
exactly the expected value at the binding key; in particular a key absent
from the store fails unless wildcarded. -/
theorem condPasses_iff (st : Store) (key value : String) :
    condPasses st key value = true ↔
      (value = "*" ∨ getValueByKey st key = some value) := by
  unfold condPasses getValueByKey getVal
  cases h : lookupComp st (keyComp key) with
  | none => simp [beq_iff_eq]
  | some props =>
      by_cases hw : value = "*"
      · simp [hw]
      · by_cases hv : lookupProp props (keyProp key) = some value
        · simp [hw, hv]
        · simp [hw, hv]

/-- The per-condition check of _validateState agrees with the one of
_checkPredefinedStates. -/
theorem valMatches_eq_condPasses (st : Store) (key value : String) :
    valMatches st key value = condPasses st key value := by
  unfold valMatches condPasses
  by_cases hw : value = "*"
  · cases h : lookupComp st (keyComp key) <;> simp [hw]
  · cases h : lookupComp st (keyComp key) with
    | none => simp [hw, beq_iff_eq]
    | some props =>
        by_cases hv : lookupProp props (keyProp key) = some value
        · simp [hw, hv]
        · simp [hw, hv]

/-- Writing a property makes it readable. -/
theorem lookupProp_setProp_self (props : List (String × String)) (p v : String) :
    lookupProp (setProp props p v) p = some v := by
  induction props with
  | nil => simp [setProp, lookupProp]
  | cons head rest ih =>
      obtain ⟨q, w⟩ := head
      by_cases h : q = p
      · simp [setProp, lookupProp, h]
      · simp [setProp, lookupProp, h, ih]

/-- Writing a property leaves the other properties unchanged. -/
theorem lookupProp_setProp_other (props : List (String × String)) (p v q' : String)
    (h : q' ≠ p) : lookupProp (setProp props p v) q' = lookupProp props q' := by
  induction props with
  | nil => simp [setProp, lookupProp, Ne.symm h]
  | cons head rest ih =>
      obtain ⟨q, w⟩ := head
      by_cases hq : q = p
      · subst hq
        simp [setProp, lookupProp, Ne.symm h]
      · simp [setProp, lookupProp, hq, ih]

/-- After changeState the written key reads back the written value. -/
theorem changeState_lookup_self (st : JSState) (k v : String) :
    lookupProp (changeState st k v).appState k = some v := by
  unfold changeState
  by_cases h : lookupProp st.appState k = some v
  · rw [if_pos h]; exact h
  · rw [if_neg h]; exact lookupProp_setProp_self st.appState k v

/-- changeState leaves the other keys unchanged. -/
theorem changeState_lookup_other (st : JSState) (k v k' : String) (h : k' ≠ k) :
    lookupProp (changeState st k v).appState k' = lookupProp st.appState k' := by
  unfold changeState
  by_cases hv : lookupProp st.appState k = some v
  · rw [if_pos hv]
  · rw [if_neg hv]; exact lookupProp_setProp_other st.appState k v k' h

/-- applyStateDefinition leaves keys outside the definition unchanged. -/
theorem apply_lookup_notin (sdef : List (String × String)) :
    ∀ (st : JSState) (k : String), k ∉ sdef.map Prod.fst →
      lookupProp (applyStateDefinition st sdef).appState k
        = lookupProp st.appState k := by
  induction sdef with
  | nil => intro st k _; rfl
  | cons kv rest ih =>
      intro st k hk
      simp only [List.map_cons, List.mem_cons, not_or] at hk
      unfold applyStateDefinition at *
      simp only [List.foldl_cons]
      rw [ih (changeState st kv.1 kv.2) k hk.2]
      exact changeState_lookup_other st kv.1 kv.2 k hk.1

/-- After applyStateDefinition every key of a duplicate-free definition
reads back its defined value. -/
theorem apply_lookup_mem (sdef : List (String × String)) :
    ∀ (st : JSState), (sdef.map Prod.fst).Nodup →
      ∀ kv ∈ sdef,
        lookupProp (applyStateDefinition st sdef).appState kv.1 = some kv.2 := by
  induction sdef with
  | nil => intro st _ kv hkv; simp at hkv
  | cons hd rest ih =>
      intro st hnd kv hkv
      simp only [List.map_cons, List.nodup_cons] at hnd
      rcases List.mem_cons.mp hkv with heq | hmem
      · subst heq
        unfold applyStateDefinition
        simp only [List.foldl_cons]
        have hni : kv.1 ∉ rest.map Prod.fst := hnd.1
        calc lookupProp (applyStateDefinition (changeState st kv.1 kv.2) rest).appState kv.1
            = lookupProp (changeState st kv.1 kv.2).appState kv.1 :=
              apply_lookup_notin rest (changeState st kv.1 kv.2) kv.1 hni
          _ = some kv.2 := changeState_lookup_self st kv.1 kv.2
      · unfold applyStateDefinition
        simp only [List.foldl_cons]
        exact ih (changeState st hd.1 hd.2) hnd.2 kv hmem

/-- changeState never touches the current state name. -/
theorem changeState_currentState (st : JSState) (k v : String) :
    (changeState st k v).currentState = st.currentState := by
  unfold changeState
  by_cases h : lookupProp st.appState k = some v
  · rw [if_pos h]
  · rw [if_neg h]

/-- applyStateDefinition never touches the current state name. -/
theorem apply_currentState (sdef : List (String × String)) :
    ∀ (st : JSState),
      (applyStateDefinition st sdef).currentState = st.currentState := by
  induction sdef with
  | nil => intro st; rfl
  | cons hd rest ih =>
      intro st
      unfold applyStateDefinition at *
      simp only [List.foldl_cons]
      rw [ih (changeState st hd.1 hd.2)]
      exact changeState_currentState st hd.1 hd.2

/-- Writing a nested store key makes it readable. -/
theorem getVal_setVal_self (st : Store) (c p v : String) :
    getVal (setVal st c p v) c p = some v := by
  induction st with
  | nil => simp [setVal, getVal, lookupComp, lookupProp]
  | cons head rest ih =>
      obtain ⟨d, props⟩ := head
      by_cases h : d = c
      · subst h
        simp [setVal, getVal, lookupComp, lookupProp_setProp_self]
      · simpa [setVal, getVal, lookupComp, h] using ih

/-- A state whose single watcher answers every committed toggleButton.value
change with a further toggle request never settles: the flip between
"true" and "false" recurses forever, so every fuel bound is exhausted. -/
theorem toggle_loop_diverges :
    ∀ (fuel : Nat), ∀ (st : MSState),
      st.watchers = [("toggleButton.value",
        [Callback.request "toggleButton" "value" (.str "toggle")])] →
      (getVal st.state "toggleButton" "value" = some "true" ∨
       getVal st.state "toggleButton" "value" = some "false") →
      requestLocalStateChange fuel st "toggleButton" "value" (.str "toggle") = none := by
  intro fuel
  induction fuel with
  | zero => intro st hw hval; rfl
  | succ fuel ih =>
      intro st hw hval
      have hallow : allowedWatchProperties.contains "value" = true := by decide
      rcases hval with h | h
      · have hres : jsString (resolveValue (some "true") (JSVal.str "toggle")) = "false" := by
          decide
        simp only [requestLocalStateChange, h, hres]
        rw [if_neg (not_not_intro hallow), if_neg (by decide)]
        unfold _notify
        have hw1 : watchersFor
            { st with state := setVal st.state "toggleButton" "value" "false" }
            ("toggleButton" ++ "." ++ "value") =
            [Callback.request "toggleButton" "value" (.str "toggle")] := by
          simp [watchersFor, hw]
        rw [hw1]
        simp only [processCallbacks]
        have happ := ih
          { st with
              state := setVal st.state "toggleButton" "value" "false",
              trace := st.trace ++
                [Event.watcherCalled ("toggleButton" ++ "." ++ "value") "false"] }
          hw (Or.inr (getVal_setVal_self st.state "toggleButton" "value" "false"))
        rw [happ]
      · have hres : jsString (resolveValue (some "false") (JSVal.str "toggle")) = "true" := by
          decide
        simp only [requestLocalStateChange, h, hres]
        rw [if_neg (not_not_intro hallow), if_neg (by decide)]
        unfold _notify
        have hw1 : watchersFor
            { st with state := setVal st.state "toggleButton" "value" "true" }
            ("toggleButton" ++ "." ++ "value") =
            [Callback.request "toggleButton" "value" (.str "toggle")] := by
          simp [watchersFor, hw]
        rw [hw1]
        simp only [processCallbacks]
        have happ := ih
          { st with
              state := setVal st.state "toggleButton" "value" "true",
              trace := st.trace ++
                [Event.watcherCalled ("toggleButton" ++ "." ++ "value") "true"] }
          hw (Or.inl (getVal_setVal_self st.state "toggleButton" "value" "true"))
        rw [happ]

/-- Running a list of purely logging callbacks succeeds and only appends
their invocation records to the trace. -/
theorem processCallbacks_logs
    (req : MSState → String → String → JSVal → Option Outcome) :
    ∀ (msgs : List String) (st : MSState) (key v : String),
      processCallbacks req st key v (msgs.map Callback.log) =
        some (.ok { st with trace := st.trace ++
          (msgs.map (fun m => [Event.watcherCalled key v, Event.cbLog m])).flatten }) := by
  intro msgs
  induction msgs with
  | nil =>
      intro st key v
      simp [processCallbacks]
  | cons m rest ih =>
      intro st key v
      simp only [List.map_cons, processCallbacks]
      rw [ih]
      simp [List.flatten, List.append_assoc]

/-- The DOM-update section never writes the store. -/
theorem domUpdate_state (st : MSState) (c p v : String) :
    (domUpdate st c p v).state = st.state := by
  unfold domUpdate
  repeat' split
  all_goals rfl

/-- The validator never writes the store. -/
theorem _validateState_state (st : MSState) : (_validateState st).state = st.state := by
  unfold _validateState
  split <;> rfl

/-- The predefined-state check never writes the store. -/
theorem _checkPredefinedStates_state (st : MSState) :
    (_checkPredefinedStates st).state = st.state := by
  simp only [_checkPredefinedStates, _validateState_state]
  split
  · split <;> rfl
  · rfl

/-- The DOM-update section only appends to the trace. -/
theorem domUpdate_trace_mem (st : MSState) (c p v : String) (x : Event)
    (hx : x ∈ st.trace) : x ∈ (domUpdate st c p v).trace := by
  unfold domUpdate
  repeat' split
  all_goals simp [hx]

/-- The validator only appends to the trace. -/
theorem _validateState_trace_mem (st : MSState) (x : Event)
    (hx : x ∈ st.trace) : x ∈ (_validateState st).trace := by
  unfold _validateState
  split <;> simp [hx]

/-- The predefined-state check only appends to the trace. -/
theorem _checkPredefinedStates_trace_mem (st : MSState) (x : Event)
    (hx : x ∈ st.trace) : x ∈ (_checkPredefinedStates st).trace := by
  simp only [_checkPredefinedStates]
  apply _validateState_trace_mem
  split
  · split <;> simp [hx]
  · exact hx

/-- C1: evidence that the code commits eagerly per key.  In eagerStart the
catalog holds one entry A requiring both x.value = "1" and y.value = "2".
Requesting only x.value = "1" already invokes the watcher on x.value and
applies the DOM effect, although afterwards no catalog entry fully matches
and the current-state pointer is still unset — contradicting the
full-match-gated commit the claim (and the repository's own README and
requirements documents) prescribe. -/
theorem eager_effects_without_full_match :
    requestLocalStateChange 5 eagerStart "x" "value" (.str "1")
      = some (.ok eagerResult) ∧
    Event.watcherCalled "x.value" "1" ∈ eagerResult.trace ∧
    Event.domSet "x" "value" "1" ∈ eagerResult.trace ∧
    findFirstMatch eagerResult.predefinedStates eagerResult.state = none ∧
    eagerResult.currentStateName = none := by decide

/-- C2 counterexample: the cascade started by one toggle request in
cycState reproduces the snapshot with toggleButton.value = "true" after
every two steps, yet the engine neither halts it with a CycleDetected
diagnostic (no such diagnostic exists anywhere in the code) nor
terminates: for every fuel bound the run is still unfinished, refuting
the claim that every cascade terminates. -/
theorem watcher_cascade_nontermination : cascadeNeverSettles :=
  fun fuel => toggle_loop_diverges fuel cycState rfl (Or.inl rfl)

/-- C2 as amended: watcher-issued nested requests re-enter
requestLocalStateChange synchronously (direct recursion during dispatch),
so the nested request's DOM write lands in the trace before the outer
request's own DOM write; there is no FIFO deferral, no cycle detection,
and a self-toggling cascade never settles. -/
theorem nested_requests_recursive_reentry :
    (requestLocalStateChange 10 reentryStart "toggleButton" "value" (.str "true") =
      some (.ok reentryResult) ∧
     reentryResult.trace.indexOf
         (Event.domSet "toggleButton" "textContent" "Hide Sidebar") <
       reentryResult.trace.indexOf (Event.domSet "toggleButton" "value" "true")) ∧
    cascadeNeverSettles :=
  ⟨by decide, fun fuel => toggle_loop_diverges fuel cycState rfl (Or.inl rfl)⟩

/-- C3 counterexample: in c3State two callbacks are registered on x.value
and the first throws.  The exception propagates out of the dispatch
(nothing is logged), the second callback never runs, and the DOM update
and state check of the commit are skipped — refuting the claim that a
throwing callback is logged and isolated from its siblings. -/
theorem throwing_watcher_not_isolated :
    requestLocalStateChange 5 c3State "x" "value" (.str "1") = some (.thrown "boom"
      { c3State with
          state := [("x", [("value", "1")])],
          trace := [Event.watcherCalled "x.value" "1"] }) ∧
    Event.cbLog "second" ∉ [Event.watcherCalled "x.value" "1"] := by decide

/-- C3 as amended: a throwing callback aborts the dispatch.  The exception
propagates out of requestLocalStateChange, the callbacks after it are
never examined (the result does not depend on rest), the store write made
before dispatch persists, and only the one invocation record is added to
the trace — no error log, no DOM update, no state check. -/
theorem throwing_watcher_aborts_dispatch :
    ∀ (fuel : Nat) (st : MSState) (c p : String) (v : JSVal) (e : String)
      (rest : List Callback),
      allowedWatchProperties.contains p = true →
      watchersFor st (c ++ "." ++ p) = Callback.throwErr e :: rest →
      getVal st.state c p ≠ some (jsString (resolveValue (getVal st.state c p) v)) →
      requestLocalStateChange (fuel + 1) st c p v = some (.thrown e
        { st with
            state := setVal st.state c p (jsString (resolveValue (getVal st.state c p) v)),
            trace := st.trace ++ [Event.watcherCalled (c ++ "." ++ p)
              (jsString (resolveValue (getVal st.state c p) v))] }) := by
  intro fuel st c p v e rest hAllowed hw hne
  simp only [requestLocalStateChange]
  rw [if_neg (not_not_intro hAllowed), if_neg hne]
  unfold _notify
  have hw1 : watchersFor
      { st with state := setVal st.state c p (jsString (resolveValue (getVal st.state c p) v)) }
      (c ++ "." ++ p) = Callback.throwErr e :: rest := hw
  rw [hw1]
  simp [processCallbacks]

/-- Witness for the amended C3 theorem at the concrete c3State input. -/
theorem throwing_watcher_aborts_dispatch_witness :
    (allowedWatchProperties.contains "value" = true ∧
     watchersFor c3State ("x" ++ "." ++ "value")
       = Callback.throwErr "boom" :: [Callback.log "second"] ∧
     getVal c3State.state "x" "value"
       ≠ some (jsString (resolveValue (getVal c3State.state "x" "value") (.str "1")))) ∧
    requestLocalStateChange 3 c3State "x" "value" (.str "1") = some (.thrown "boom"
      { c3State with
          state := setVal c3State.state "x" "value"
            (jsString (resolveValue (getVal c3State.state "x" "value") (.str "1"))),
          trace := c3State.trace ++ [Event.watcherCalled ("x" ++ "." ++ "value")
            (jsString (resolveValue (getVal c3State.state "x" "value") (.str "1")))] }) :=
  ⟨⟨by decide, by decide, by decide⟩,
    throwing_watcher_aborts_dispatch 2 c3State "x" "value" (.str "1") "boom"
      [Callback.log "second"] (by decide) (by decide) (by decide)⟩

/-- C4 counterexample: in c4State the current state is A and there is no
edge at all, in particular no self edge A to A.  The claim demands that
transitionState then fail with an InvalidTransition diagnostic; the code
instead returns silently with the state entirely unchanged and nothing
logged. -/
theorem self_transition_no_invalid_diagnostic :
    findValidTransition c4State "A" = none ∧
    transitionState c4State "A" = some c4State := by decide

/-- C4 as amended: for a target different from the current state,
transitionState logs the not-allowed diagnostic and changes nothing
unless an edge to the target with an absent or truthy guard exists; with
such an edge (and a defined, duplicate-free target definition) the target
definition's entire key/value set is applied and the current state
becomes the target.  A request for the current state itself is a silent
no-op, settled separately. -/
theorem transition_legality :
    ∀ (st : JSState) (t : String), t ≠ st.currentState →
      (findValidTransition st t = none →
        transitionState st t = some { st with log := st.log ++
          ["Transition from " ++ st.currentState ++ " to " ++ t ++ " not allowed."] }) ∧
      (∀ e sdef, findValidTransition st t = some e → stateDefOf st t = some sdef →
        (sdef.map Prod.fst).Nodup →
        ∃ st', transitionState st t = some st' ∧ st'.currentState = t ∧
          ∀ kv ∈ sdef, lookupProp st'.appState kv.1 = some kv.2) := by
  intro st t ht
  constructor
  · intro hnone
    unfold transitionState
    rw [if_neg (fun hh => ht hh.symm), hnone]
  · intro e sdef he hdef hnd
    unfold transitionState
    rw [if_neg (fun hh => ht hh.symm), he, hdef]
    refine ⟨_, rfl, ?_, ?_⟩
    · simp only []
      rw [apply_currentState]
    · intro kv hkv
      simp only []
      exact apply_lookup_mem sdef _ hnd kv hkv

/-- Witness for the amended C4 theorem: the edge A to B of c4EdgeState is
taken and B's whole definition is applied. -/
theorem transition_legality_witness :
    (("B" : String) ≠ c4EdgeState.currentState ∧
     findValidTransition c4EdgeState "B" = some ("B", some true) ∧
     stateDefOf c4EdgeState "B" = some [("k", "2"), ("m", "3")] ∧
     (([("k", "2"), ("m", "3")] : List (String × String)).map Prod.fst).Nodup) ∧
    (∃ st', transitionState c4EdgeState "B" = some st' ∧ st'.currentState = "B" ∧
      ∀ kv ∈ ([("k", "2"), ("m", "3")] : List (String × String)),
        lookupProp st'.appState kv.1 = some kv.2) :=
  ⟨⟨by decide, by decide, by decide, by decide⟩,
    (transition_legality c4EdgeState "B" (by decide)).2 ("B", some true)
      [("k", "2"), ("m", "3")] (by decide) (by decide) (by decide)⟩

/-- C5: toggle resolution against the current committed value: "true"
resolves to "false" and "false" to "true"; an unset key resolves to
"true"; the empty string and the alternate marker "hidden" cycle into
each other, and every other value enters that cycle at "". -/
theorem toggle_resolution :
    resolveToggle (some "true") = "false" ∧
    resolveToggle (some "false") = "true" ∧
    resolveToggle none = "true" ∧
    resolveToggle (some "") = "hidden" ∧
    resolveToggle (some "hidden") = "" ∧
    (∀ v : String, v ≠ "true" → v ≠ "false" → v ≠ "" →
      resolveToggle (some v) = "") := by
  refine ⟨by decide, by decide, by decide, by decide, by decide, ?_⟩
  intro v h1 h2 h3
  simp [resolveToggle, h1, h2, h3]

/-- Witness for the C5 theorem at the non-boolean value "abc". -/
theorem toggle_resolution_witness :
    ("abc" ≠ "true" ∧ "abc" ≠ "false" ∧ "abc" ≠ "") ∧
      resolveToggle (some "abc") = "" :=
  ⟨by decide, toggle_resolution.2.2.2.2.2 "abc" (by decide) (by decide) (by decide)⟩

/-- C6: the matcher accepts a configuration iff every key/value pair is
wildcarded or the store holds exactly that value at the binding key (a
key absent from the store fails unless wildcarded; pure conjunction), and
the validator of _validateState checks exactly the same condition. -/
theorem matcher_conjunction :
    ∀ (st : Store) (conds : List (String × String)),
      (matchesConds st conds = true ↔
        ∀ kv ∈ conds, kv.2 = "*" ∨ getValueByKey st kv.1 = some kv.2) ∧
      conds.all (fun kv => valMatches st kv.1 kv.2) = matchesConds st conds := by
  intro st conds
  constructor
  · unfold matchesConds
    rw [List.all_eq_true]
    constructor
    · intro h kv hkv
      exact (condPasses_iff st kv.1 kv.2).mp (h kv hkv)
    · intro h kv hkv
      exact (condPasses_iff st kv.1 kv.2).mpr (h kv hkv)
  · unfold matchesConds
    congr 1
    funext kv
    exact valMatches_eq_condPasses st kv.1 kv.2

/-- Witness for the C6 theorem at a concrete store and configuration with
a wildcarded and a non-wildcarded key. -/
theorem matcher_conjunction_witness :
    (matchesConds [("x", [("value", "1")])] [("x.value", "*"), ("y.value", "2")] = true ↔
      ∀ kv ∈ ([("x.value", "*"), ("y.value", "2")] : List (String × String)),
        kv.2 = "*" ∨ getValueByKey [("x", [("value", "1")])] kv.1 = some kv.2) ∧
    ([("x.value", "*"), ("y.value", "2")] : List (String × String)).all
        (fun kv => valMatches [("x", [("value", "1")])] kv.1 kv.2)
      = matchesConds [("x", [("value", "1")])] [("x.value", "*"), ("y.value", "2")] :=
  matcher_conjunction [("x", [("value", "1")])] [("x.value", "*"), ("y.value", "2")]

/-- C7: the catalog scan is first-match-wins in definition order: when an
entry matches and every earlier entry fails, that entry is returned, no
matter how many later entries also match; and being a function of the
catalog and store, the selection is deterministic on every run. -/
theorem first_match_wins :
    ∀ (st : Store) (pre : Catalog) (entry : String × List (String × String))
      (post : Catalog),
      (∀ e ∈ pre, matchesConds st e.2 = false) →
      matchesConds st entry.2 = true →
      findFirstMatch (pre ++ entry :: post) st = some entry := by
  intro st pre entry post hpre hentry
  induction pre with
  | nil =>
      unfold findFirstMatch
      simp [List.find?_cons_of_pos, hentry]
  | cons e rest ih =>
      unfold findFirstMatch at *
      have he : matchesConds st e.2 = false := hpre e (by simp)
      simp only [List.cons_append]
      rw [List.find?_cons_of_neg]
      · exact ih (fun x hx => hpre x (by simp [hx]))
      · simp [he]

/-- Witness for the C7 theorem: with entries A and B both matching, the
earlier-defined A is selected past the failing entry Z. -/
theorem first_match_wins_witness :
    ((∀ e ∈ ([("Z", [("x.value", "9")])] : Catalog),
        matchesConds [("x", [("value", "1")])] e.2 = false) ∧
     matchesConds [("x", [("value", "1")])] [("x.value", "1")] = true) ∧
    findFirstMatch
        ([("Z", [("x.value", "9")])] ++ ("A", [("x.value", "1")]) ::
          [("B", [("x.value", "*")])])
        [("x", [("value", "1")])] = some ("A", [("x.value", "1")]) :=
  ⟨⟨by decide, by decide⟩,
    first_match_wins [("x", [("value", "1")])] [("Z", [("x.value", "9")])]
      ("A", [("x.value", "1")]) [("B", [("x.value", "*")])] (by decide) (by decide)⟩

/-- C8: requesting a value that, after toggle resolution and String(...)
coercion, equals the key's current committed value is a complete no-op:
the returned state is the input state, so no watcher is invoked, no DOM
effect is applied, nothing is logged and the store is unchanged; hence
repeating an identical request changes nothing. -/
theorem request_noop :
    ∀ (fuel : Nat) (st : MSState) (componentId property : String) (v : JSVal),
      allowedWatchProperties.contains property = true →
      getVal st.state componentId property
        = some (jsString (resolveValue (getVal st.state componentId property) v)) →
      requestLocalStateChange (fuel + 1) st componentId property v = some (.ok st) := by
  intro fuel st c p v hAllowed hEq
  unfold requestLocalStateChange
  rw [if_neg (not_not_intro hAllowed)]
  exact if_pos hEq

/-- Witness for the C8 theorem: requesting the number 5 on a key whose
committed value is already the string "5". -/
theorem request_noop_witness :
    (allowedWatchProperties.contains "value" = true ∧
      getVal [("x", [("value", "5")])] "x" "value"
        = some (jsString (resolveValue (getVal [("x", [("value", "5")])] "x" "value")
            (.num 5)))) ∧
    requestLocalStateChange 3
      { state := [("x", [("value", "5")])], watchers := [], predefinedStates := [],
        elements := [], currentStateName := none, trace := [] }
      "x" "value" (.num 5) = some (.ok
      { state := [("x", [("value", "5")])], watchers := [], predefinedStates := [],
        elements := [], currentStateName := none, trace := [] }) :=
  ⟨⟨by decide, by decide⟩,
    request_noop 2
      { state := [("x", [("value", "5")])], watchers := [], predefinedStates := [],
        elements := [], currentStateName := none, trace := [] }
      "x" "value" (.num 5) (by decide) (by decide)⟩

/-- C9: transitionState on the current state name returns at once with
the state unchanged: no guard is consulted, the definition is not
re-applied, nothing is logged, and this holds whether or not a self edge
exists in the transition graph. -/
theorem transitionState_self_noop :
    ∀ (st : JSState) (t : String), st.currentState = t →
      transitionState st t = some st := by
  intro st t h
  unfold transitionState
  rw [if_pos h]

/-- Witness for the C9 theorem at a state with no transitions at all. -/
theorem transitionState_self_noop_witness :
    (JSState.currentState
      { appState := [], stateWatchers := [], states := [],
        stateTransitions := [], currentState := "A", log := [] } = "A") ∧
    transitionState
      { appState := [], stateWatchers := [], states := [],
        stateTransitions := [], currentState := "A", log := [] } "A" = some
      { appState := [], stateWatchers := [], states := [],
        stateTransitions := [], currentState := "A", log := [] } :=
  ⟨by decide, transitionState_self_noop _ "A" (by decide)⟩

/-- C10: a successful request stores the String(...) coercion of the
resolved value (the store's values are strings by construction) and the
watchers of the key are invoked with exactly that coerced string: the
written key reads back the coerced value, the invocation record carries
it, and every logging callback ran. -/
theorem values_coerced_to_strings :
    ∀ (fuel : Nat) (st : MSState) (c p : String) (v : JSVal) (msgs : List String),
      allowedWatchProperties.contains p = true →
      watchersFor st (c ++ "." ++ p) = msgs.map Callback.log →
      getVal st.state c p ≠ some (jsString (resolveValue (getVal st.state c p) v)) →
      ∃ st', requestLocalStateChange (fuel + 1) st c p v = some (.ok st') ∧
        getVal st'.state c p
          = some (jsString (resolveValue (getVal st.state c p) v)) ∧
        (msgs ≠ [] → Event.watcherCalled (c ++ "." ++ p)
          (jsString (resolveValue (getVal st.state c p) v)) ∈ st'.trace) ∧
        (∀ m ∈ msgs, Event.cbLog m ∈ st'.trace) := by
  intro fuel st c p v msgs hAllowed hw hne
  simp only [requestLocalStateChange]
  rw [if_neg (not_not_intro hAllowed), if_neg hne]
  unfold _notify
  have hw1 : watchersFor
      { st with state := setVal st.state c p (jsString (resolveValue (getVal st.state c p) v)) }
      (c ++ "." ++ p) = msgs.map Callback.log := hw
  rw [hw1, processCallbacks_logs]
  refine ⟨_, rfl, ?_, ?_, ?_⟩
  · rw [_checkPredefinedStates_state, domUpdate_state]
    exact getVal_setVal_self st.state c p _
  · intro hmsgs
    apply _checkPredefinedStates_trace_mem
    apply domUpdate_trace_mem
    obtain ⟨m, rest, rfl⟩ := List.exists_cons_of_ne_nil hmsgs
    simp
  · intro m hm
    apply _checkPredefinedStates_trace_mem
    apply domUpdate_trace_mem
    simp only [List.mem_append]
    right
    rw [List.mem_flatten]
    exact ⟨[Event.watcherCalled (c ++ "." ++ p)
      (jsString (resolveValue (getVal st.state c p) v)), Event.cbLog m],
      List.mem_map_of_mem _ hm, by simp⟩

/-- Witness for the C10 theorem: feeding the number 5 into coercionState
stores and notifies the string "5". -/
theorem values_coerced_witness :
    (allowedWatchProperties.contains "value" = true ∧
     watchersFor coercionState ("x" ++ "." ++ "value") = ["w"].map Callback.log ∧
     getVal coercionState.state "x" "value"
       ≠ some (jsString (resolveValue (getVal coercionState.state "x" "value") (.num 5)))) ∧
    (∃ st', requestLocalStateChange 3 coercionState "x" "value" (.num 5) = some (.ok st') ∧
      getVal st'.state "x" "value"
        = some (jsString (resolveValue (getVal coercionState.state "x" "value") (.num 5))) ∧
      (["w"] ≠ ([] : List String) → Event.watcherCalled ("x" ++ "." ++ "value")
        (jsString (resolveValue (getVal coercionState.state "x" "value") (.num 5)))
          ∈ st'.trace) ∧
      (∀ m ∈ ["w"], Event.cbLog m ∈ st'.trace)) :=
  ⟨⟨by decide, by decide, by decide⟩,
    values_coerced_to_strings 2 coercionState "x" "value" (.num 5) ["w"]
      (by decide) (by decide) (by decide)⟩
